import Mathlib

/-!
Shallow embedding of `src/cleanjsondata.py` (the CrewHu notification
re-formatting pipeline) and verification of the specification's claims
about it.  Strings are modelled as Lean `String` / `List Char`; Python's
whitespace set is modelled by the ASCII whitespace characters (all inputs
appearing in the program and the spec are ASCII).  Regular expressions are
embedded by a small backtracking engine (`matchItems` / `searchAt`) whose
items mirror the constructs appearing in the source's patterns, with
Python's priority order (lazy groups shortest-first, greedy pieces
longest-first, leftmost search position wins).
-/

set_option maxRecDepth 20000

namespace Crewhu

/-- Python whitespace (`str.strip()` / regex class backslash-s), ASCII part. -/
def isPySpace (c : Char) : Bool :=
  c = ' ' || c = '\t' || c = '\n' || c = '\r' || c = '\x0b' || c = '\x0c'

/-- `needle` is a prefix of `hay`, exact characters. -/
def startsWithL : List Char → List Char → Bool
  | [], _ => true
  | _ :: _, [] => false
  | n :: ns, h :: hs => (n = h) && startsWithL ns hs

/-- `needle` is a prefix of `hay`, case-insensitively (IGNORECASE literals,
`str.lower()` containment tests). -/
def startsWithCIL : List Char → List Char → Bool
  | [], _ => true
  | _ :: _, [] => false
  | n :: ns, h :: hs => (n.toLower = h.toLower) && startsWithCIL ns hs

/-- Substring containment: Python `needle in hay`. -/
def containsL (hay needle : List Char) : Bool :=
  startsWithL needle hay ||
    (match hay with
     | [] => false
     | _ :: t => containsL t needle)

/-- Case-insensitive substring containment (`"rating" in line.lower()`). -/
def containsCIL (hay needle : List Char) : Bool :=
  startsWithCIL needle hay ||
    (match hay with
     | [] => false
     | _ :: t => containsCIL t needle)

/-- Python line-break characters recognised by `str.splitlines` (ASCII part
plus the Unicode line separators). -/
def isLineBreak (c : Char) : Bool :=
  c = '\n' || c = '\r' || c = '\x0b' || c = '\x0c' ||
  c = '\x1c' || c = '\x1d' || c = '\x1e' || c = '\x85' ||
  c = '\u2028' || c = '\u2029'

/-- Worker for `pySplitlines`: accumulates the current line (reversed). -/
def splitlinesAux : List Char → List Char → List (List Char)
  | [], acc => [acc.reverse]
  | '\r' :: '\n' :: cs, acc =>
      acc.reverse ::
        (match cs with
         | [] => []
         | _ :: _ => splitlinesAux cs [])
  | c :: cs, acc =>
      if isLineBreak c then
        acc.reverse ::
          (match cs with
           | [] => []
           | _ :: _ => splitlinesAux cs [])
      else splitlinesAux cs (c :: acc)

/-- Python `str.splitlines()`: no trailing empty line after a final
terminator, and the empty string yields `[]`. -/
def pySplitlines : List Char → List (List Char)
  | [] => []
  | c :: cs => splitlinesAux (c :: cs) []

/-- Remove a trailing run of whitespace. -/
def stripTrail : List Char → List Char
  | [] => []
  | c :: cs =>
      match stripTrail cs with
      | [] => if isPySpace c then [] else [c]
      | r => c :: r

/-- Python `str.strip()` (no argument): drop leading and trailing whitespace. -/
def pyStrip (l : List Char) : List Char :=
  stripTrail (l.dropWhile isPySpace)

/-- Python `str.strip('"')`: drop leading and trailing double quotes. -/
def stripTrailQuote : List Char → List Char
  | [] => []
  | c :: cs =>
      match stripTrailQuote cs with
      | [] => if c = '\"' then [] else [c]
      | r => c :: r

def stripQuotes (l : List Char) : List Char :=
  stripTrailQuote (l.dropWhile (fun c => c = '\"'))

/-- Worker for `subWS`; the flag records whether the previous character was
whitespace (i.e. we are inside a run already replaced by a space). -/
def subWSAux : Bool → List Char → List Char
  | _, [] => []
  | inRun, c :: cs =>
      if isPySpace c then
        if inRun then subWSAux true cs else ' ' :: subWSAux true cs
      else c :: subWSAux false cs

/-- `re.sub(r"\s+", " ", text)`: replace each maximal whitespace run by a
single space. -/
def subWS (l : List Char) : List Char :=
  subWSAux false l

/-- `normalize_text` from the source: `value.strip()` then collapse
whitespace runs to single spaces. -/
def normalize_text (s : String) : String :=
  String.mk (subWS (pyStrip s.data))

/-- Numeric value of a digit list (most significant first). -/
def natOfDigits (l : List Char) : Nat :=
  l.foldl (fun n c => 10 * n + (c.toNat - 48)) 0

/-- Python `int(s)` on a string, as a partial function: optional surrounding
whitespace, optional sign, then one or more decimal digits; anything else
raises `ValueError` (modelled as `none`).  Digit-grouping underscores are
not modelled. -/
def pyIntOfStr (s : String) : Option Int :=
  match pyStrip s.data with
  | '+' :: ds =>
      if ds ≠ [] ∧ ds.all Char.isDigit then some ((natOfDigits ds : Nat) : Int) else none
  | '-' :: ds =>
      if ds ≠ [] ∧ ds.all Char.isDigit then some (-((natOfDigits ds : Nat) : Int)) else none
  | ds =>
      if ds ≠ [] ∧ ds.all Char.isDigit then some ((natOfDigits ds : Nat) : Int) else none

/-- Named capture groups appearing in the source's patterns. -/
inductive GName
  | customer | company | rating | employee | categories | ticket_id | ticket_desc
deriving DecidableEq

/-- `MatchResult`: the value of `match.groupdict()` (a group that the
winning pattern does not define, or that Python reports as `None`, is
`none`; `.get` on a missing key is also `None`, so one `Option` covers
both). -/
structure Caps where
  customer : Option String := none
  company : Option String := none
  rating : Option String := none
  employee : Option String := none
  categories : Option String := none
  ticket_id : Option String := none
  ticket_desc : Option String := none
deriving DecidableEq

def setCap (g : GName) (s : String) (c : Caps) : Caps :=
  match g with
  | .customer => { c with customer := some s }
  | .company => { c with company := some s }
  | .rating => { c with rating := some s }
  | .employee => { c with employee := some s }
  | .categories => { c with categories := some s }
  | .ticket_id => { c with ticket_id := some s }
  | .ticket_desc => { c with ticket_desc := some s }

/-- Items of the source's regular expressions: case-insensitive literals,
lazy `.+?` named groups, greedy `\d+` named groups, greedy `\s*`, lazy
`[^)]*?` named groups, an optional literal `(?:...)?`, and the trailing
`(?:\.|$)` alternation. -/
inductive RItem
  | lit (s : String)
  | dotsLazy (g : GName)
  | digitsOf (g : GName)
  | wsStar
  | noParenLazy (g : GName)
  | optLit (s : String)
  | dotOrEnd
deriving DecidableEq

def itemGroup : RItem → Option GName
  | .dotsLazy g => some g
  | .digitsOf g => some g
  | .noParenLazy g => some g
  | _ => none

/-- The (captured text, rest-of-input) alternatives an item can consume at
the current position, in the priority order of Python's backtracking:
lazy pieces shortest first, greedy pieces longest first, an optional
literal present-first, `\.` before `$`. -/
def candidates : RItem → List Char → List (List Char × List Char)
  | .lit s, cs =>
      if startsWithCIL s.data cs then [(cs.take s.data.length, cs.drop s.data.length)] else []
  | .dotsLazy _, cs =>
      let m := (cs.takeWhile (fun c => c ≠ '\n')).length
      (List.range m).map (fun i => (cs.take (i + 1), cs.drop (i + 1)))
  | .digitsOf _, cs =>
      let m := (cs.takeWhile Char.isDigit).length
      ((List.range m).reverse).map (fun i => (cs.take (i + 1), cs.drop (i + 1)))
  | .wsStar, cs =>
      let m := (cs.takeWhile isPySpace).length
      ((List.range (m + 1)).reverse).map (fun i => (cs.take i, cs.drop i))
  | .noParenLazy _, cs =>
      let m := (cs.takeWhile (fun c => c ≠ ')')).length
      (List.range (m + 1)).map (fun i => (cs.take i, cs.drop i))
  | .optLit s, cs =>
      if startsWithCIL s.data cs then
        [(cs.take s.data.length, cs.drop s.data.length), ([], cs)]
      else [([], cs)]
  | .dotOrEnd, cs =>
      (match cs with
       | '.' :: r => [(['.'], r)]
       | _ => []) ++
      (match cs with
       | [] => [([], ([] : List Char))]
       | _ :: _ => [])

/-- Backtracking matcher anchored at the current position: consume the
items in order, trying each item's alternatives in priority order; the
first complete success wins (there is no end anchor, mirroring
`re.search`). -/
def matchItems : List RItem → List Char → Caps → Option Caps
  | [], _, caps => some caps
  | it :: its, cs, caps =>
      (candidates it cs).findSome? (fun pr =>
        matchItems its pr.2
          (match itemGroup it with
           | none => caps
           | some g => setCap g (String.mk pr.1) caps))

/-- `pattern.search(text)`: try a match at each position, leftmost wins. -/
def searchAt (its : List RItem) : List Char → Option Caps
  | [] => matchItems its [] {}
  | c :: r =>
      match matchItems its (c :: r) {} with
      | some caps => some caps
      | none => searchAt its r

/-- `RATING_PATTERNS` from the source, in their exact order. -/
def RATING_PATTERNS : List (List RItem) :=
  [ -- "Name from Company gave a Positive rating to Tech for Categories on ticket# 123 (Description)."
    [.dotsLazy .customer, .lit (" from "), .dotsLazy .company, .lit (" gave a "),
     .dotsLazy .rating, .lit (" rating to "), .dotsLazy .employee, .lit (" for "),
     .dotsLazy .categories, .lit (" on ticket# "), .digitsOf .ticket_id, .wsStar,
     .lit ("("), .noParenLazy .ticket_desc, .lit (")")],
    -- "Name from Company gave a Positive Rating for Categories on ticket# 123 (Description) to your colleague Tech."
    [.dotsLazy .customer, .lit (" from "), .dotsLazy .company, .lit (" gave a "),
     .dotsLazy .rating, .lit (" rating for "), .dotsLazy .categories, .lit (" on ticket# "),
     .digitsOf .ticket_id, .wsStar, .lit ("("), .noParenLazy .ticket_desc, .lit (")"),
     .wsStar, .lit ("to "), .optLit ("your colleague "), .dotsLazy .employee, .dotOrEnd],
    -- "Company gave a Positive rating to Tech for Categories on ticket# 123 (Description)."
    [.dotsLazy .company, .lit (" gave a "), .dotsLazy .rating, .lit (" rating to "),
     .dotsLazy .employee, .lit (" for "), .dotsLazy .categories, .lit (" on ticket# "),
     .digitsOf .ticket_id, .wsStar, .lit ("("), .noParenLazy .ticket_desc, .lit (")")],
    -- "Name from Company gave a Positive rating to Tech for ticket# 123 (Description)." (no categories)
    [.dotsLazy .customer, .lit (" from "), .dotsLazy .company, .lit (" gave a "),
     .dotsLazy .rating, .lit (" rating to "), .dotsLazy .employee, .lit (" for ticket# "),
     .digitsOf .ticket_id, .wsStar, .lit ("("), .noParenLazy .ticket_desc, .lit (")")],
    -- "Company gave a Positive rating to Tech for ticket# 123 (Description)." (no categories)
    [.dotsLazy .company, .lit (" gave a "), .dotsLazy .rating, .lit (" rating to "),
     .dotsLazy .employee, .lit (" for ticket# "), .digitsOf .ticket_id, .wsStar,
     .lit ("("), .noParenLazy .ticket_desc, .lit (")")],
    -- "Company gave a Positive Rating for ticket# 123 (Description) to Tech." (no categories, colleague phrasing)
    [.dotsLazy .company, .lit (" gave a "), .dotsLazy .rating, .lit (" rating for ticket# "),
     .digitsOf .ticket_id, .wsStar, .lit ("("), .noParenLazy .ticket_desc, .lit (")"),
     .wsStar, .lit ("to "), .optLit ("your colleague "), .dotsLazy .employee, .dotOrEnd] ]

/-- `TICKET_ID_PATTERN = re.compile(r"ticket#\s*(\d+)", re.IGNORECASE)`,
its single group stored in the `ticket_id` slot. -/
def TICKET_ID_ITEMS : List RItem :=
  [.lit ("ticket#"), .wsStar, .digitsOf .ticket_id]

/-- Normalize every captured string (`normalize_text(v) if isinstance(v, str)`),
keeping `None` values as `None`. -/
def normCaps (c : Caps) : Caps :=
  { customer := c.customer.map normalize_text,
    company := c.company.map normalize_text,
    rating := c.rating.map normalize_text,
    employee := c.employee.map normalize_text,
    categories := c.categories.map normalize_text,
    ticket_id := c.ticket_id.map normalize_text,
    ticket_desc := c.ticket_desc.map normalize_text }

/-- The retained, stripped lines:
`[line.strip() for line in full_body.splitlines() if "rating" in line.lower()]`. -/
def cleanedLines (full_body : String) : List (List Char) :=
  (pySplitlines full_body.data).filterMap (fun line =>
    if containsCIL line ("rating".data) then some (pyStrip line) else none)

/-- Try the six patterns, in order, on one line (`pattern.search(line)`). -/
def tryPats (pats : List (List RItem)) (line : List Char) : Option Caps :=
  pats.findSome? (fun its => searchAt its line)

/-- `match_rating_line` from the source. -/
def match_rating_line (full_body : String) : Option Caps :=
  (cleanedLines full_body).findSome? (fun line =>
    (tryPats RATING_PATTERNS line).map normCaps)

/-- `SurveyEntry` from the source. -/
structure SurveyEntry where
  ticket_number : Int
  summary : String
  customer_feedback : String
deriving DecidableEq

/-- Outcome of `build_summary`: `fatal` models an uncaught `ValueError`
raised by `int(...)`, `skipped` models `return None`. -/
inductive BuildOutcome
  | fatal
  | skipped
  | built (e : SurveyEntry)
deriving DecidableEq

/-- `coalesce` from the source at a single argument (the only way the
source calls it): skip `None`, strip, fall back to the default when the
stripped text is empty. -/
def coalesce (v : Option String) (default : String) : String :=
  match v with
  | none => default
  | some s =>
      let t := String.mk (pyStrip s.data)
      if t = "" then default else t

/-- `build_summary` from the source.  `match_data.get("ticket_id") or
match_data.get("ticket_number")` falls through to `None` when `ticket_id`
is missing or empty (the `ticket_number` key never exists in a
`match_rating_line` result); `int(...)` on an unparsable string raises. -/
def build_summary (match_data : Caps) : BuildOutcome :=
  let ticket_number : Option String :=
    match match_data.ticket_id with
    | some s => if s = "" then none else some s
    | none => none
  match ticket_number with
  | none => .skipped
  | some s =>
      match pyIntOfStr s with
      | none => .fatal
      | some n =>
          let employee := coalesce match_data.employee ("Unknown technician")
          let company := coalesce match_data.company ("Unknown company")
          let customer := coalesce match_data.customer ("A customer")
          let rating := coalesce match_data.rating ("Positive")
          let categories := coalesce match_data.categories ("(categories not provided)")
          let ticket_desc := coalesce match_data.ticket_desc ("")
          .built
            { ticket_number := n,
              summary :=
                customer ++ " from " ++ company ++ " just gave a " ++ rating ++
                " rating to " ++ employee ++ " for " ++ categories ++
                " on ticket# " ++ toString n ++ " (" ++ ticket_desc ++ ").",
              customer_feedback := "" }

/-- `FEEDBACK_PATTERN.search(full_body)` and `.group(1)`: the pattern is
`Customer feedback:\s*(.*)` with IGNORECASE and DOTALL, so the group is
everything after the leftmost marker occurrence and the following maximal
whitespace run. -/
def fbSearch : List Char → Option (List Char)
  | [] => none
  | c :: r =>
      if startsWithCIL ("Customer feedback:".data) (c :: r) then
        some (((c :: r).drop ("Customer feedback:".data).length).dropWhile isPySpace)
      else fbSearch r

/-- Prefix of the input before the first occurrence of `sub`
(`text.split(sub, 1)[0]` for a non-empty separator). -/
def splitAtSub (sub : List Char) : List Char → List Char
  | [] => []
  | c :: r =>
      if startsWithL sub (c :: r) then [] else c :: splitAtSub sub r

/-- Regex word characters, ASCII part (for the word boundaries in
`re.split(r"\bClick here\b|Regards,", feedback, 1)`). -/
def isWordChar (c : Char) : Bool :=
  c.isAlpha || c.isDigit || c = '_'

/-- Scan for the first match of `\bClick here\b|Regards,` (case-sensitive,
as in the source) and return the text before it; `prev` is the character
just before the current position (for the word boundaries). -/
def boundarySplit (prev : Option Char) : List Char → List Char
  | [] => []
  | c :: r =>
      let atBoundary : Bool :=
        match prev with
        | none => true
        | some p => !isWordChar p
      let clickHere : Bool :=
        atBoundary && startsWithL ("Click here".data) (c :: r) &&
          (match (c :: r).drop ("Click here".data).length with
           | [] => true
           | d :: _ => !isWordChar d)
      if clickHere || startsWithL ("Regards,".data) (c :: r) then []
      else c :: boundarySplit (some c) r

/-- The processing chain of `extract_feedback` after a successful marker
search: `.strip()`, `.strip('"')`, truncation at the first blank line,
truncation at the `Click here`/`Regards,` boundary tokens, then
`.replace("\r", "\n").splitlines()` re-joined from the stripped non-empty
lines. -/
def feedbackCore (g : List Char) : List Char :=
  let f1 := pyStrip g
  let f2 := stripQuotes f1
  let f3 := splitAtSub ('\n' :: '\n' :: []) f2
  let f4 := boundarySplit none f3
  let f5 := f4.map (fun c => if c = '\r' then '\n' else c)
  let parts := (pySplitlines f5).filterMap (fun l =>
    let t := pyStrip l
    if t = [] then none else some t)
  List.intercalate ([' ']) parts

/-- `extract_feedback` from the source. -/
def extract_feedback (full_body : String) : String :=
  match fbSearch full_body.data with
  | none => "No feedback provided."
  | some g =>
      let out := feedbackCore g
      if out = [] then "No feedback provided." else String.mk out

/-- The processed feedback text as a named quantity (`none` when the
marker is absent). -/
def processedFeedback (full_body : String) : Option String :=
  (fbSearch full_body.data).map (fun g => String.mk (feedbackCore g))

/-- One input notification (`email.get("Subject", "")`,
`email.get("FullBody", "")`). -/
structure Email where
  Subject : String
  FullBody : String

/-- The driver's mutable state: `surveys : dict[int, SurveyEntry]`
(modelled as an association list in insertion order, updates in place,
matching Python dict semantics) and `missed : list[int]`. -/
structure PState where
  surveys : List (Int × SurveyEntry)
  missed : List Int
deriving DecidableEq

def storeLookup (st : List (Int × SurveyEntry)) (k : Int) : Option SurveyEntry :=
  (st.find? (fun p => p.1 = k)).map (fun p => p.2)

/-- `surveys[k] = v`: overwrite in place if the key exists, else append. -/
def storeUpsert (st : List (Int × SurveyEntry)) (k : Int) (v : SurveyEntry) :
    List (Int × SurveyEntry) :=
  if st.any (fun p => p.1 = k) then
    st.map (fun p => if p.1 = k then (k, v) else p)
  else st ++ [(k, v)]

/-- `TICKET_ID_PATTERN.search(full_body)` and `.group(1)`. -/
def ticketIdSearch (full_body : String) : Option String :=
  (searchAt TICKET_ID_ITEMS full_body.data).bind (fun c => c.ticket_id)

/-- The body of the `for email in emails` loop of `parse_crewhu_data`.
`Except.error ()` models an uncaught `ValueError` from `int(...)`
aborting the batch. -/
def step (st : PState) (em : Email) : Except Unit PState :=
  if !containsCIL em.Subject.data ("rating".data) then .ok st
  else
    match match_rating_line em.FullBody with
    | none =>
        match ticketIdSearch em.FullBody with
        | some ds =>
            match pyIntOfStr ds with
            | none => .error ()
            | some ticket_num =>
                if storeLookup st.surveys ticket_num = none then
                  .ok { st with missed := st.missed ++ [ticket_num] }
                else .ok st
        | none => .ok st
    | some match_data =>
        match build_summary match_data with
        | .fatal => .error ()
        | .skipped => .ok st
        | .built e =>
            let e' := { e with customer_feedback := extract_feedback em.FullBody }
            .ok { st with surveys := storeUpsert st.surveys e'.ticket_number e' }

def runSteps (st : PState) : List Email → Except Unit PState
  | [] => .ok st
  | em :: ems =>
      match step st em with
      | .error u => .error u
      | .ok st' => runSteps st' ems

/-- `parse_crewhu_data` with the file I/O and printing stripped: returns
the sorted output records together with the `missed` diagnostic list. -/
def parse_crewhu_data (emails : List Email) :
    Except Unit (List SurveyEntry × List Int) :=
  match runSteps { surveys := [], missed := [] } emails with
  | .error u => .error u
  | .ok st =>
      .ok ((st.surveys.map (fun p => p.2)).mergeSort
             (fun a b => a.ticket_number ≤ b.ticket_number),
           st.missed)

/-- No character of the list's last position is whitespace. -/
def lastNotWS (l : List Char) : Prop :=
  ∀ c, l.getLast? = some c → isPySpace c = false

/-- No character of the list's head position is whitespace. -/
def headNotWS (l : List Char) : Prop :=
  ∀ c, l.head? = some c → isPySpace c = false

/-- Canonical whitespace shape: every whitespace character is a single
space immediately followed by a non-whitespace character. -/
def canonB : List Char → Bool
  | [] => true
  | c :: cs =>
      if isPySpace c then
        (c = ' ') &&
          (match cs with
           | [] => false
           | d :: _ => !isPySpace d) && canonB cs
      else canonB cs

/-- No lazy any-character or lazy non-paren group writes into `ticket_id`
(only `digitsOf` items may). -/
def tidOnlyDigits (items : List RItem) : Bool :=
  items.all (fun it =>
    match it with
    | .dotsLazy g => g ≠ GName.ticket_id
    | .noParenLazy g => g ≠ GName.ticket_id
    | _ => true)

/-- Some item of the list captures into `ticket_id`. -/
def hasTid (items : List RItem) : Bool :=
  items.any (fun it => itemGroup it = some GName.ticket_id)

/-- If the `ticket_id` slot is set, it holds a non-empty all-digit string. -/
def goodTid (c : Caps) : Prop :=
  ∀ s : String, c.ticket_id = some s → s.data ≠ [] ∧ s.data.all Char.isDigit = true

/-- The record a single notification contributes to the store, if any:
the rating-subject check, the matcher, the builder, and the feedback
attachment of the driver's loop body. -/
def emailRecord (em : Email) : Option SurveyEntry :=
  if !containsCIL em.Subject.data ("rating".data) then none
  else
    match match_rating_line em.FullBody with
    | none => none
    | some md =>
        match build_summary md with
        | .built e => some { e with customer_feedback := extract_feedback em.FullBody }
        | _ => none

/-- All records upserted while processing a batch, in processing order. -/
def successRecords (emails : List Email) : List SurveyEntry :=
  emails.filterMap emailRecord

/-- The last record in the list carrying the given ticket number. -/
def lastWithTicket (l : List SurveyEntry) (n : Int) : Option SurveyEntry :=
  (l.filter (fun e => e.ticket_number = n)).getLast?

/-- Store invariant: keys are distinct, each key is its record's ticket
number, and looking a ticket up yields the last record processed for it. -/
def StoreInv (surveys : List (Int × SurveyEntry)) (hist : List SurveyEntry) : Prop :=
  (surveys.map Prod.fst).Nodup ∧
  (∀ p ∈ surveys, p.1 = p.2.ticket_number) ∧
  (∀ n : Int, storeLookup surveys n = lastWithTicket hist n)

/-! ## Generic helper lemmas -/

theorem findSome?_append_of_none {α β : Type} {f : α → Option β} {l₁ l₂ : List α}
    (h : ∀ a ∈ l₁, f a = none) :
    (l₁ ++ l₂).findSome? f = l₂.findSome? f := by
  rw [List.findSome?_append, List.findSome?_eq_none_iff.mpr h, Option.none_or]

/-! ## Claims -/

/-- **C1** (code bug): `build_summary` does not skip a record whose ticket
identifier is present but not a parseable non-negative integer — the
`int(ticket_number)` call on line 135 of `src/cleanjsondata.py` is not
guarded by any `try`, so it raises `ValueError` and aborts the batch
(modelled as the `fatal` outcome), instead of returning `None`. -/
theorem C1_malformed_ticket_raises :
    build_summary { ticket_id := some ("abc") } = BuildOutcome.fatal := by
  decide

/-- **C2**: the end-to-end example of the spec.  Running the pipeline on
the single notification with Subject "New Rating!" and the given body
produces exactly one record, with ticket number 42, the exact summary
sentence, and customer feedback "Fast fix, thanks!". -/
theorem C2_end_to_end :
    parse_crewhu_data
        [{ Subject := "New Rating!",
           FullBody := "Jane from Acme gave a Positive rating to Bob for Speed on ticket# 42 (great job)\nCustomer feedback: Fast fix, thanks!\n\nRegards," }] =
      .ok ([{ ticket_number := 42,
              summary := "Jane from Acme just gave a Positive rating to Bob for Speed on ticket# 42 (great job).",
              customer_feedback := "Fast fix, thanks!" }], []) := by
  have h : runSteps { surveys := [], missed := [] }
      [{ Subject := "New Rating!",
         FullBody := "Jane from Acme gave a Positive rating to Bob for Speed on ticket# 42 (great job)\nCustomer feedback: Fast fix, thanks!\n\nRegards," }] =
      .ok { surveys :=
              [(42, { ticket_number := 42,
                      summary := "Jane from Acme just gave a Positive rating to Bob for Speed on ticket# 42 (great job).",
                      customer_feedback := "Fast fix, thanks!" })],
            missed := [] } := by rfl
  unfold parse_crewhu_data
  rw [h]
  show Except.ok
      (([{ ticket_number := (42 : Int),
           summary := "Jane from Acme just gave a Positive rating to Bob for Speed on ticket# 42 (great job).",
           customer_feedback := "Fast fix, thanks!" }] :
          List SurveyEntry).mergeSort _, ([] : List Int)) = _
  rw [List.mergeSort_singleton]

/-- **C3**: `match_rating_line` tries the retained lines in original order
and, on each line, the six templates in their fixed list order, returning
the (normalized) capture groups of the first line/template pair that
matches; in particular, on a line matched both by the customer+company
template (list position 0) and by the company-only template (list
position 2), the customer+company template's result is returned. -/
theorem C3_first_match_wins :
    (∀ (body : String) (pre post : List (List Char)) (line : List Char) (caps : Caps),
        cleanedLines body = pre ++ line :: post →
        (∀ l ∈ pre, tryPats RATING_PATTERNS l = none) →
        tryPats RATING_PATTERNS line = some caps →
        match_rating_line body = some (normCaps caps)) ∧
    (∀ (pats₁ pats₂ : List (List RItem)) (p : List RItem) (line : List Char) (caps : Caps),
        RATING_PATTERNS = pats₁ ++ p :: pats₂ →
        (∀ q ∈ pats₁, searchAt q line = none) →
        searchAt p line = some caps →
        tryPats RATING_PATTERNS line = some caps) ∧
    (∀ (p₀ p₁ p₂ p₃ p₄ p₅ : List RItem) (line : List Char) (c₀ c₂ : Caps),
        RATING_PATTERNS = [p₀, p₁, p₂, p₃, p₄, p₅] →
        searchAt p₀ line = some c₀ →
        searchAt p₂ line = some c₂ →
        tryPats RATING_PATTERNS line = some c₀) := by
  refine ⟨?_, ?_, ?_⟩
  · intro body pre post line caps hsplit hpre hline
    unfold match_rating_line
    rw [hsplit, findSome?_append_of_none (by intro l hl; rw [hpre l hl]; rfl),
      List.findSome?_cons, hline]
    rfl
  · intro pats₁ pats₂ p line caps hsplit hpre hp
    unfold tryPats
    rw [hsplit, findSome?_append_of_none hpre, List.findSome?_cons, hp]
  · intro p₀ p₁ p₂ p₃ p₄ p₅ line c₀ c₂ hsplit h₀ _
    unfold tryPats
    rw [hsplit, List.findSome?_cons, h₀]

/-- Witness for C3: a concrete line matched both by the customer+company
template and by the company-only template; the customer+company result
(customer "Jane", company "Acme") is what `match_rating_line` returns. -/
theorem C3_first_match_wins_witness :
    match_rating_line "Jane from Acme gave a Positive rating to Bob for Speed on ticket# 5 (d)" =
      some { customer := some ("Jane"), company := some ("Acme"),
             rating := some ("Positive"), employee := some ("Bob"),
             categories := some ("Speed"), ticket_id := some ("5"),
             ticket_desc := some ("d") } := by
  have h := C3_first_match_wins
  have h1 := h.1 "Jane from Acme gave a Positive rating to Bob for Speed on ticket# 5 (d)"
    [] [] ("Jane from Acme gave a Positive rating to Bob for Speed on ticket# 5 (d)".data)
    { customer := some ("Jane"), company := some ("Acme"),
      rating := some ("Positive"), employee := some ("Bob"),
      categories := some ("Speed"), ticket_id := some ("5"),
      ticket_desc := some ("d") }
    (by decide) (by intro l hl; cases hl)
    (h.2.2
      (RATING_PATTERNS.get ⟨0, by decide⟩) (RATING_PATTERNS.get ⟨1, by decide⟩)
      (RATING_PATTERNS.get ⟨2, by decide⟩) (RATING_PATTERNS.get ⟨3, by decide⟩)
      (RATING_PATTERNS.get ⟨4, by decide⟩) (RATING_PATTERNS.get ⟨5, by decide⟩)
      ("Jane from Acme gave a Positive rating to Bob for Speed on ticket# 5 (d)".data)
      { customer := some ("Jane"), company := some ("Acme"),
        rating := some ("Positive"), employee := some ("Bob"),
        categories := some ("Speed"), ticket_id := some ("5"),
        ticket_desc := some ("d") }
      { customer := none, company := some ("Jane from Acme"),
        rating := some ("Positive"), employee := some ("Bob"),
        categories := some ("Speed"), ticket_id := some ("5"),
        ticket_desc := some ("d") }
      (by decide) (by decide) (by decide))
  exact h1.trans (by decide)

/-- **C6** (counterexample): the claim's "exactly when" fails.  On the body
"Customer feedback: No feedback provided." the function returns the
sentinel string, yet the marker is present and the processed text is the
non-empty string "No feedback provided." itself — sentinel output does
not imply that the marker was absent or the processed text empty. -/
theorem C6_counterexample :
    ¬ (extract_feedback "Customer feedback: No feedback provided." = "No feedback provided." ↔
        (fbSearch ("Customer feedback: No feedback provided." : String).data = none ∨
         processedFeedback "Customer feedback: No feedback provided." = some (""))) := by
  decide

/-- **C6** (amended): `extract_feedback` returns the sentinel
"No feedback provided." when the body has no case-insensitive
"Customer feedback:" marker, or when the processed text (quote-stripping,
truncation at the first blank line and at the "Click here"/"Regards,"
boundary tokens, line-wise normalization) is empty; otherwise it returns
that non-empty processed text — which may itself coincide with the
sentinel string, so the converse direction does not hold. -/
theorem C6_feedback_sentinel (body : String) :
    (fbSearch body.data = none → extract_feedback body = "No feedback provided.") ∧
    (processedFeedback body = some ("") → extract_feedback body = "No feedback provided.") ∧
    (∀ t : String, processedFeedback body = some t → t ≠ "" →
      extract_feedback body = t) := by
  refine ⟨?_, ?_, ?_⟩
  · intro h
    unfold extract_feedback
    rw [h]
  · intro h
    unfold processedFeedback at h
    rcases hf : fbSearch body.data with _ | g
    · unfold extract_feedback
      rw [hf]
    · rw [hf, Option.map_some'] at h
      have hout : String.mk (feedbackCore g) = "" := Option.some.inj h
      have hnil : feedbackCore g = [] := by
        have := congrArg String.data hout
        simpa using this
      unfold extract_feedback
      rw [hf]
      simp only [hnil, if_pos]
  · intro t h hne
    unfold processedFeedback at h
    rcases hf : fbSearch body.data with _ | g
    · rw [hf] at h; cases h
    · rw [hf, Option.map_some'] at h
      have hout : String.mk (feedbackCore g) = t := Option.some.inj h
      have hnil : feedbackCore g ≠ [] := by
        intro hn
        apply hne
        rw [← hout, hn]
      unfold extract_feedback
      rw [hf]
      simp only [if_neg hnil, hout]

/-- Witness for C6's amended statement: a body with no marker yields the
sentinel; a body whose processed text is empty yields the sentinel; a
body with non-empty feedback yields that feedback. -/
theorem C6_feedback_sentinel_witness :
    extract_feedback "nothing here" = "No feedback provided." ∧
    extract_feedback "Customer feedback:    \n\nRegards," = "No feedback provided." ∧
    extract_feedback "Customer feedback: Fast fix!" = "Fast fix!" :=
  ⟨(C6_feedback_sentinel "nothing here").1 (by decide),
   (C6_feedback_sentinel "Customer feedback:    \n\nRegards,").2.1 (by decide),
   (C6_feedback_sentinel "Customer feedback: Fast fix!").2.2 "Fast fix!" (by decide) (by decide)⟩

/-! ### Idempotence of the text normalizer (C9) -/

theorem subWSAux_cons_not_ws {c : Char} (hc : isPySpace c = false) (b : Bool)
    (cs : List Char) :
    subWSAux b (c :: cs) = c :: subWSAux false cs := by
  cases b <;> simp [subWSAux, hc]

theorem subWSAux_false_cons_ws {c : Char} (hc : isPySpace c = true) (cs : List Char) :
    subWSAux false (c :: cs) = ' ' :: subWSAux true cs := by
  simp [subWSAux, hc]

theorem subWSAux_true_cons_ws {c : Char} (hc : isPySpace c = true) (cs : List Char) :
    subWSAux true (c :: cs) = subWSAux true cs := by
  simp [subWSAux, hc]

theorem canonB_cons_not_ws {c : Char} (hc : isPySpace c = false) (cs : List Char) :
    canonB (c :: cs) = canonB cs := by
  conv_lhs => unfold canonB
  rw [hc]
  simp

theorem canonB_cons_ws {c : Char} (hc : isPySpace c = true) (cs : List Char) :
    canonB (c :: cs) =
      (decide (c = ' ') &&
        (match cs with
         | [] => false
         | d :: _ => !isPySpace d) && canonB cs) := by
  conv_lhs => unfold canonB
  rw [hc]
  simp

theorem subWSAux_true_eq_false_of_head (l : List Char) (h : headNotWS l) :
    subWSAux true l = subWSAux false l := by
  cases l with
  | nil => rfl
  | cons c cs =>
      rw [subWSAux_cons_not_ws (h c rfl), subWSAux_cons_not_ws (h c rfl)]

theorem subWSAux_canon : ∀ l : List Char, lastNotWS l →
    canonB (subWSAux false l) = true ∧ canonB (subWSAux true l) = true ∧
    headNotWS (subWSAux true l) ∧ (l ≠ [] → subWSAux true l ≠ []) := by
  intro l
  induction l with
  | nil =>
      intro _
      refine ⟨rfl, rfl, ?_, ?_⟩
      · intro c hc; cases hc
      · intro h'; exact absurd rfl h'
  | cons c cs ih =>
      intro h
      cases cs with
      | nil =>
          have hc : isPySpace c = false := h c (by simp)
          refine ⟨?_, ?_, ?_, ?_⟩
          · rw [subWSAux_cons_not_ws hc, canonB_cons_not_ws hc]
            rfl
          · rw [subWSAux_cons_not_ws hc, canonB_cons_not_ws hc]
            rfl
          · intro x hx
            rw [subWSAux_cons_not_ws hc] at hx
            cases hx
            exact hc
          · intro _
            rw [subWSAux_cons_not_ws hc]
            exact List.cons_ne_nil _ _
      | cons d ds =>
          have hcs : lastNotWS (d :: ds) := by
            intro x hx
            exact h x (by simpa using hx)
          obtain ⟨ihF, ihT, ihH, ihNE⟩ := ih hcs
          cases hc : isPySpace c with
          | false =>
              refine ⟨?_, ?_, ?_, ?_⟩
              · rw [subWSAux_cons_not_ws hc, canonB_cons_not_ws hc]
                exact ihF
              · rw [subWSAux_cons_not_ws hc, canonB_cons_not_ws hc]
                exact ihF
              · intro x hx
                rw [subWSAux_cons_not_ws hc] at hx
                cases hx
                exact hc
              · intro _
                rw [subWSAux_cons_not_ws hc]
                exact List.cons_ne_nil _ _
          | true =>
              have hne : subWSAux true (d :: ds) ≠ [] := ihNE (by simp)
              refine ⟨?_, ?_, ?_, ?_⟩
              · rw [subWSAux_false_cons_ws hc]
                rcases hX : subWSAux true (d :: ds) with _ | ⟨x, xs⟩
                · exact absurd hX hne
                · have hx : isPySpace x = false := by
                    have := ihH x
                    rw [hX] at this
                    exact this rfl
                  have hT : canonB (x :: xs) = true := by
                    rw [← hX]
                    exact ihT
                  rw [canonB_cons_ws (show isPySpace ' ' = true from by decide)]
                  simp [hx, hT]
              · rw [subWSAux_true_cons_ws hc]
                exact ihT
              · intro x hx
                rw [subWSAux_true_cons_ws hc] at hx
                exact ihH x hx
              · intro _
                rw [subWSAux_true_cons_ws hc]
                exact hne

theorem subWSAux_of_canon : ∀ l : List Char, canonB l = true → subWSAux false l = l := by
  intro l
  induction l with
  | nil => intro _; rfl
  | cons c cs ih =>
      intro h
      cases hc : isPySpace c with
      | false =>
          rw [canonB_cons_not_ws hc] at h
          rw [subWSAux_cons_not_ws hc, ih h]
      | true =>
          rw [canonB_cons_ws hc] at h
          simp only [Bool.and_eq_true] at h
          obtain ⟨⟨hsp, hd⟩, hcs⟩ := h
          cases cs with
          | nil => cases hd
          | cons d ds =>
              have hdw : isPySpace d = false := by
                simpa using hd
              have hspc : c = ' ' := by simpa using hsp
              rw [subWSAux_false_cons_ws hc,
                subWSAux_true_eq_false_of_head (d :: ds)
                  (by intro x hx; cases hx; exact hdw),
                ih hcs, hspc]

theorem lastNotWS_of_canon : ∀ l : List Char, canonB l = true → lastNotWS l := by
  intro l
  induction l with
  | nil => intro _ c hc; cases hc
  | cons c cs ih =>
      intro h x hx
      cases cs with
      | nil =>
          have hcx : c = x := by simpa using hx
          subst hcx
          cases hc : isPySpace c with
          | false => rfl
          | true => rw [canonB_cons_ws hc] at h; simp at h
      | cons d ds =>
          have hcs : canonB (d :: ds) = true := by
            cases hc : isPySpace c with
            | false => rw [canonB_cons_not_ws hc] at h; exact h
            | true =>
                rw [canonB_cons_ws hc] at h
                simp only [Bool.and_eq_true] at h
                exact h.2
          exact ih hcs x (by simpa using hx)

theorem lastNotWS_stripTrail : ∀ l : List Char, lastNotWS (stripTrail l) := by
  intro l
  induction l with
  | nil => intro c hc; cases hc
  | cons c cs ih =>
      intro x hx
      rcases hs : stripTrail cs with _ | ⟨r, rs⟩
      · unfold stripTrail at hx
        rw [hs] at hx
        cases hc : isPySpace c with
        | false =>
            rw [hc] at hx
            simp at hx
            subst hx
            exact hc
        | true => rw [hc] at hx; simp at hx
      · unfold stripTrail at hx
        rw [hs] at hx
        simp only [List.getLast?_cons_cons] at hx
        apply ih
        rw [hs]
        exact hx

theorem stripTrail_of_lastNotWS : ∀ l : List Char, lastNotWS l → stripTrail l = l := by
  intro l
  induction l with
  | nil => intro _; rfl
  | cons c cs ih =>
      intro h
      cases cs with
      | nil =>
          have hc : isPySpace c = false := h c (by simp)
          unfold stripTrail
          rw [show stripTrail ([] : List Char) = [] from rfl]
          simp [hc]
      | cons d ds =>
          have hcs : stripTrail (d :: ds) = d :: ds :=
            ih (by intro x hx; exact h x (by simpa using hx))
          unfold stripTrail
          rw [hcs]

theorem headNotWS_dropWhile : ∀ l : List Char, headNotWS (l.dropWhile isPySpace) := by
  intro l
  induction l with
  | nil => intro c hc; cases hc
  | cons c cs ih =>
      cases hc : isPySpace c with
      | true =>
          intro x hx
          rw [List.dropWhile_cons_of_pos hc] at hx
          exact ih x hx
      | false =>
          intro x hx
          rw [List.dropWhile_cons_of_neg (by simp [hc])] at hx
          cases hx
          exact hc

theorem headNotWS_stripTrail (l : List Char) (h : headNotWS l) :
    headNotWS (stripTrail l) := by
  cases l with
  | nil => intro c hc; cases hc
  | cons c cs =>
      intro x hx
      unfold stripTrail at hx
      rcases hs : stripTrail cs with _ | ⟨r, rs⟩ <;> rw [hs] at hx
      · cases hc : isPySpace c with
        | true => rw [hc] at hx; simp at hx
        | false =>
            rw [hc] at hx
            simp at hx
            subst hx
            exact hc
      · simp at hx
        subst hx
        exact h c rfl

theorem headNotWS_subWSAux_false (l : List Char) (h : headNotWS l) :
    headNotWS (subWSAux false l) := by
  cases l with
  | nil => intro c hc; cases hc
  | cons c cs =>
      intro x hx
      have hc : isPySpace c = false := h c rfl
      rw [subWSAux_cons_not_ws hc] at hx
      cases hx
      exact hc

theorem dropWhile_of_headNotWS (l : List Char) (h : headNotWS l) :
    l.dropWhile isPySpace = l := by
  cases l with
  | nil => rfl
  | cons c cs => exact List.dropWhile_cons_of_neg (by simp [h c rfl])

/-- `pyStrip` is the identity on a list with non-whitespace head and last. -/
theorem pyStrip_id (l : List Char) (hh : headNotWS l) (hl : lastNotWS l) :
    pyStrip l = l := by
  unfold pyStrip
  rw [dropWhile_of_headNotWS l hh, stripTrail_of_lastNotWS l hl]

/-- **C9**: the text normalizer is idempotent:
`normalize_text (normalize_text x) = normalize_text x`. -/
theorem C9_normalize_text_idempotent (x : String) :
    normalize_text (normalize_text x) = normalize_text x := by
  unfold normalize_text
  have hlast : lastNotWS (pyStrip x.data) := lastNotWS_stripTrail _
  have hcanon := (subWSAux_canon (pyStrip x.data) hlast).1
  have hy_last : lastNotWS (subWS (pyStrip x.data)) :=
    lastNotWS_of_canon _ hcanon
  have hy_head : headNotWS (subWS (pyStrip x.data)) := by
    unfold subWS
    apply headNotWS_subWSAux_false
    unfold pyStrip
    exact headNotWS_stripTrail _ (headNotWS_dropWhile _)
  show String.mk (subWS (pyStrip (subWS (pyStrip x.data)))) = _
  rw [pyStrip_id _ hy_head hy_last]
  unfold subWS
  rw [subWSAux_of_canon _ hcanon]

/-! ### The matcher only writes digits into the ticket-id group (C10) -/

theorem take_all_of_le_takeWhile {p : Char → Bool} :
    ∀ (l : List Char) (n : Nat), n ≤ (l.takeWhile p).length →
      (l.take n).all p = true := by
  intro l
  induction l with
  | nil =>
      intro n _
      simp
  | cons c cs ih =>
      intro n hn
      cases hp : p c with
      | true =>
          rw [List.takeWhile_cons_of_pos hp] at hn
          cases n with
          | zero => simp
          | succ m =>
              rw [List.take_succ_cons, List.all_cons, hp, Bool.true_and]
              exact ih m (Nat.le_of_succ_le_succ hn)
      | false =>
          rw [List.takeWhile_cons_of_neg (by simp [hp])] at hn
          have : n = 0 := Nat.le_zero.mp hn
          subst this
          simp

theorem setCap_ticket_id_of_ne {g : GName} (hg : g ≠ GName.ticket_id)
    (s : String) (c : Caps) : (setCap g s c).ticket_id = c.ticket_id := by
  cases g <;> first | rfl | exact absurd rfl hg

theorem setCap_ticket_id_isSome (g : GName) (s : String) (c : Caps)
    (h : c.ticket_id.isSome = true) : (setCap g s c).ticket_id.isSome = true := by
  cases g <;> simp [setCap] <;> exact h

theorem matchItems_goodTid :
    ∀ (items : List RItem) (cs : List Char) (caps out : Caps),
      tidOnlyDigits items = true → goodTid caps →
      matchItems items cs caps = some out → goodTid out := by
  intro items
  induction items with
  | nil =>
      intro cs caps out _ hcaps hm
      cases hm
      exact hcaps
  | cons it its ih =>
      intro cs caps out htid hcaps hm
      rw [show tidOnlyDigits (it :: its) = _ from List.all_cons .., Bool.and_eq_true] at htid
      obtain ⟨htid1, htid2⟩ := htid
      unfold matchItems at hm
      obtain ⟨pr, hmem, hf⟩ := List.exists_of_findSome?_eq_some hm
      cases it with
      | lit s => exact ih pr.2 caps out htid2 hcaps hf
      | wsStar => exact ih pr.2 caps out htid2 hcaps hf
      | optLit s => exact ih pr.2 caps out htid2 hcaps hf
      | dotOrEnd => exact ih pr.2 caps out htid2 hcaps hf
      | dotsLazy g =>
          refine ih pr.2 _ out htid2 ?_ hf
          intro s hs
          simp only [itemGroup] at hs
          rw [setCap_ticket_id_of_ne (by simpa using htid1)] at hs
          exact hcaps s hs
      | noParenLazy g =>
          refine ih pr.2 _ out htid2 ?_ hf
          intro s hs
          simp only [itemGroup] at hs
          rw [setCap_ticket_id_of_ne (by simpa using htid1)] at hs
          exact hcaps s hs
      | digitsOf g =>
          refine ih pr.2 _ out htid2 ?_ hf
          rcases hg : g == GName.ticket_id with _ | _
          · have hg' : g ≠ GName.ticket_id := by
              intro e
              subst e
              simp at hg
            intro s hs
            simp only [itemGroup] at hs
            rw [setCap_ticket_id_of_ne hg'] at hs
            exact hcaps s hs
          · have hg' : g = GName.ticket_id := by
              cases g <;> first | rfl | simp at hg
            subst hg'
            intro s hs
            simp only [itemGroup] at hs
            have hset : (setCap GName.ticket_id (String.mk pr.1) caps).ticket_id =
                some (String.mk pr.1) := rfl
            rw [hset] at hs
            cases hs
            simp only [candidates] at hmem
            obtain ⟨i, hi, hpr⟩ := List.mem_map.mp hmem
            subst hpr
            rw [List.mem_reverse, List.mem_range] at hi
            have hle : i + 1 ≤ (cs.takeWhile Char.isDigit).length := hi
            have hlen : i + 1 ≤ cs.length :=
              Nat.le_trans hle (List.takeWhile_sublist Char.isDigit).length_le
            constructor
            · show cs.take (i + 1) ≠ []
              intro hnil
              rw [List.take_eq_nil_iff] at hnil
              rcases hnil with h1 | h1
              · cases h1
              · subst h1
                simp at hlen
            · show (cs.take (i + 1)).all Char.isDigit = true
              exact take_all_of_le_takeWhile cs (i + 1) hle

theorem matchItems_tid_isSome :
    ∀ (items : List RItem) (cs : List Char) (caps out : Caps),
      matchItems items cs caps = some out →
      (caps.ticket_id.isSome = true ∨ hasTid items = true) →
      out.ticket_id.isSome = true := by
  intro items
  induction items with
  | nil =>
      intro cs caps out hm h
      cases hm
      rcases h with h | h
      · exact h
      · cases h
  | cons it its ih =>
      intro cs caps out hm h
      unfold matchItems at hm
      obtain ⟨pr, _, hf⟩ := List.exists_of_findSome?_eq_some hm
      rcases hg : itemGroup it with _ | g
      · rw [hg] at hf
        refine ih pr.2 caps out hf ?_
        rcases h with h | h
        · exact Or.inl h
        · right
          unfold hasTid at h ⊢
          rw [List.any_cons] at h
          rcases Bool.or_eq_true_iff.mp h with h1 | h1
          · rw [hg] at h1
            simp at h1
          · exact h1
      · rw [hg] at hf
        rcases hgt : g == GName.ticket_id with _ | _
        · refine ih pr.2 _ out hf ?_
          have hg' : g ≠ GName.ticket_id := by
            intro e
            subst e
            simp at hgt
          rcases h with h | h
          · left
            rw [setCap_ticket_id_of_ne hg']
            exact h
          · right
            unfold hasTid at h ⊢
            rw [List.any_cons] at h
            rcases Bool.or_eq_true_iff.mp h with h1 | h1
            · rw [hg] at h1
              simp only [decide_eq_true_eq, Option.some.injEq] at h1
              exact absurd h1 hg'
            · exact h1
        · have hg' : g = GName.ticket_id := by
            cases g <;> first | rfl | simp at hgt
          subst hg'
          refine ih pr.2 _ out hf (Or.inl ?_)
          rfl

theorem searchAt_goodTid :
    ∀ (its : List RItem) (cs : List Char) (out : Caps),
      tidOnlyDigits its = true → searchAt its cs = some out →
      goodTid out ∧ (hasTid its = true → out.ticket_id.isSome = true) := by
  intro its cs
  induction cs with
  | nil =>
      intro out htid hs
      unfold searchAt at hs
      refine ⟨matchItems_goodTid its [] {} out htid ?_ hs, fun h =>
        matchItems_tid_isSome its [] {} out hs (Or.inr h)⟩
      intro s h'
      cases h'
  | cons c r ih =>
      intro out htid hs
      unfold searchAt at hs
      rcases hm : matchItems its (c :: r) {} with _ | caps
      · rw [hm] at hs
        exact ih out htid hs
      · rw [hm] at hs
        cases hs
        refine ⟨matchItems_goodTid its (c :: r) {} out htid ?_ hm, fun h =>
          matchItems_tid_isSome its (c :: r) {} out hm (Or.inr h)⟩
        intro s h'
        cases h'

theorem isPySpace_eq_false_of_isDigit {c : Char} (h : c.isDigit = true) :
    isPySpace c = false := by
  cases hw : isPySpace c with
  | false => rfl
  | true =>
      unfold isPySpace at hw
      simp only [Bool.or_eq_true, decide_eq_true_eq] at hw
      rcases hw with ((((h1 | h1) | h1) | h1) | h1) | h1 <;>
        (subst h1; exact absurd h (by decide))

theorem subWSAux_false_of_noWS :
    ∀ l : List Char, (∀ c ∈ l, isPySpace c = false) → subWSAux false l = l := by
  intro l
  induction l with
  | nil => intro _; rfl
  | cons c cs ih =>
      intro h
      rw [subWSAux_cons_not_ws (h c (List.mem_cons_self c cs)),
        ih (fun x hx => h x (List.mem_cons_of_mem c hx))]

theorem stripTrail_of_noWS :
    ∀ l : List Char, (∀ c ∈ l, isPySpace c = false) → stripTrail l = l := by
  intro l h
  apply stripTrail_of_lastNotWS
  intro c hc
  rcases List.mem_getLast?_eq_getLast hc with ⟨hne, he⟩
  exact h c (by rw [he]; exact List.getLast_mem hne)

theorem pyStrip_of_noWS (l : List Char) (h : ∀ c ∈ l, isPySpace c = false) :
    pyStrip l = l := by
  unfold pyStrip
  have hd : l.dropWhile isPySpace = l := by
    cases l with
    | nil => rfl
    | cons c cs =>
        exact List.dropWhile_cons_of_neg (by simp [h c (List.mem_cons_self c cs)])
  rw [hd, stripTrail_of_noWS l h]

theorem noWS_of_all_digits {l : List Char} (h : l.all Char.isDigit = true) :
    ∀ c ∈ l, isPySpace c = false := by
  intro c hc
  exact isPySpace_eq_false_of_isDigit (List.all_eq_true.mp h c hc)

/-- `normalize_text` is the identity on an all-digit string. -/
theorem normalize_text_of_digits (s : String) (h : s.data.all Char.isDigit = true) :
    normalize_text s = s := by
  unfold normalize_text subWS
  rw [pyStrip_of_noWS s.data (noWS_of_all_digits h),
    subWSAux_false_of_noWS s.data (noWS_of_all_digits h)]

/-- `int()` succeeds on a non-empty all-digit string. -/
theorem pyIntOfStr_digits (s : String) (h1 : s.data ≠ [])
    (h2 : s.data.all Char.isDigit = true) :
    pyIntOfStr s = some ((natOfDigits s.data : Nat) : Int) := by
  unfold pyIntOfStr
  rw [pyStrip_of_noWS s.data (noWS_of_all_digits h2)]
  rcases hdata : s.data with _ | ⟨c, cs⟩
  · exact absurd hdata h1
  · have h2' : (c :: cs).all Char.isDigit = true := by
      rw [← hdata]
      exact h2
    have hc : c.isDigit = true :=
      List.all_eq_true.mp h2' c (List.mem_cons_self c cs)
    have hplus : c ≠ '+' := by
      intro e
      subst e
      exact absurd hc (by decide)
    have hminus : c ≠ '-' := by
      intro e
      subst e
      exact absurd hc (by decide)
    split
    · next ds hds =>
        cases hds
        exact absurd rfl hplus
    · next ds hds =>
        cases hds
        exact absurd rfl hminus
    · next h' h'' =>
        rw [if_pos ⟨List.cons_ne_nil c cs, h2'⟩]

/-- **C10**: whenever `match_rating_line` returns a `MatchResult`, its
`ticket_id` field holds a non-empty all-digit string, so `build_summary`
on a matcher-produced result never reaches the integer-parsing error
branch — it always builds a record. -/
theorem C10_matcher_ticket_id_digits (body : String) (r : Caps)
    (h : match_rating_line body = some r) :
    ∃ s : String, r.ticket_id = some s ∧ s ≠ "" ∧ s.data.all Char.isDigit = true ∧
      ∃ e : SurveyEntry, build_summary r = BuildOutcome.built e := by
  unfold match_rating_line at h
  obtain ⟨line, _, hline⟩ := List.exists_of_findSome?_eq_some h
  obtain ⟨caps, hcaps, hnorm⟩ := Option.map_eq_some'.mp hline
  unfold tryPats at hcaps
  obtain ⟨its, hits, hsearch⟩ := List.exists_of_findSome?_eq_some hcaps
  have htid : tidOnlyDigits its = true := by
    have hall : RATING_PATTERNS.all tidOnlyDigits = true := by decide
    exact List.all_eq_true.mp hall its hits
  have hhas : hasTid its = true := by
    have hall : RATING_PATTERNS.all hasTid = true := by decide
    exact List.all_eq_true.mp hall its hits
  obtain ⟨hgood, hsome⟩ := searchAt_goodTid its line caps htid hsearch
  obtain ⟨s₀, hs₀⟩ := Option.isSome_iff_exists.mp (hsome hhas)
  obtain ⟨hne₀, hdig₀⟩ := hgood s₀ hs₀
  have hrt : r.ticket_id = some (normalize_text s₀) := by
    rw [← hnorm]
    show (normCaps caps).ticket_id = _
    unfold normCaps
    rw [show caps.ticket_id = some s₀ from hs₀]
    rfl
  rw [normalize_text_of_digits s₀ hdig₀] at hrt
  refine ⟨s₀, hrt, ?_, hdig₀, ?_⟩
  · intro e
    apply hne₀
    rw [show s₀.data = (String.data "") from congrArg String.data e]
  · unfold build_summary
    rw [hrt]
    have hsne : (s₀ = "") = False := by
      apply eq_false
      intro e
      apply hne₀
      rw [show s₀.data = (String.data "") from congrArg String.data e]
    simp only [hsne, if_false]
    rw [pyIntOfStr_digits s₀ hne₀ hdig₀]
    exact ⟨_, rfl⟩

/-- Witness for C10 at a concrete body that the matcher accepts. -/
theorem C10_matcher_ticket_id_digits_witness :
    ∃ s : String,
      (Caps.ticket_id <$> match_rating_line "Al gave a Positive rating to Bo for Care on ticket# 77 (ok)").join = some s ∧
      s ≠ "" ∧ s.data.all Char.isDigit = true := by
  obtain ⟨s, hs, hne, hdig, _⟩ :=
    C10_matcher_ticket_id_digits "Al gave a Positive rating to Bo for Care on ticket# 77 (ok)"
      { company := some ("Al"), rating := some ("Positive"), employee := some ("Bo"),
        categories := some ("Care"), ticket_id := some ("77"), ticket_desc := some ("ok") }
      (by decide)
  refine ⟨s, ?_, hne, hdig⟩
  rw [show match_rating_line "Al gave a Positive rating to Bo for Care on ticket# 77 (ok)" =
      some { company := some ("Al"), rating := some ("Positive"), employee := some ("Bo"),
             categories := some ("Care"), ticket_id := some ("77"), ticket_desc := some ("ok") }
    from by decide]
  simpa using hs

/-! ### Driver-level claims (C4, C5, C7, C8) -/

theorem mergeSort_pair {α : Type} (le : α → α → Bool) (a b : α) :
    List.mergeSort [a, b] le = if le a b then [a, b] else [b, a] := by
  rw [List.mergeSort]
  cases hab : le a b <;> simp [List.merge, hab]

/-- **C7**: a notification whose subject lacks the case-insensitive
substring "rating" leaves the state (record store and unmatched list)
unchanged, and removing it from a batch does not change the pipeline's
output. -/
theorem C7_skip_invariant :
    (∀ (st : PState) (em : Email),
        containsCIL em.Subject.data ("rating".data) = false →
        step st em = .ok st) ∧
    (∀ (pre post : List Email) (em : Email),
        containsCIL em.Subject.data ("rating".data) = false →
        parse_crewhu_data (pre ++ em :: post) = parse_crewhu_data (pre ++ post)) := by
  have hstep : ∀ (st : PState) (em : Email),
      containsCIL em.Subject.data ("rating".data) = false →
      step st em = .ok st := by
    intro st em h
    unfold step
    rw [h]
    rfl
  refine ⟨hstep, ?_⟩
  intro pre post em h
  have hrun : ∀ (pre' : List Email) (st : PState),
      runSteps st (pre' ++ em :: post) = runSteps st (pre' ++ post) := by
    intro pre'
    induction pre' with
    | nil =>
        intro st
        show (match step st em with
              | Except.error u => Except.error u
              | Except.ok st' => runSteps st' post) = runSteps st post
        rw [hstep st em h]
    | cons p ps ih =>
        intro st
        show runSteps st (p :: (ps ++ em :: post)) = runSteps st (p :: (ps ++ post))
        unfold runSteps
        rcases step st p with _ | st'
        · rfl
        · exact ih st'
  unfold parse_crewhu_data
  rw [hrun pre { surveys := [], missed := [] }]

/-- Witness for C7: dropping a no-"rating"-subject notification from a
concrete two-element batch leaves the output unchanged. -/
theorem C7_skip_invariant_witness :
    step { surveys := [], missed := [] } { Subject := "hello", FullBody := "x" } =
      .ok { surveys := [], missed := [] } ∧
    parse_crewhu_data
        [{ Subject := "New Rating!",
           FullBody := "Al gave a Positive rating to Bo for Care on ticket# 7 (ok)" },
         { Subject := "hello", FullBody := "x" }] =
      parse_crewhu_data
        [{ Subject := "New Rating!",
           FullBody := "Al gave a Positive rating to Bo for Care on ticket# 7 (ok)" }] :=
  ⟨C7_skip_invariant.1 { surveys := [], missed := [] }
      { Subject := "hello", FullBody := "x" } (by decide),
   C7_skip_invariant.2
      [{ Subject := "New Rating!",
         FullBody := "Al gave a Positive rating to Bo for Care on ticket# 7 (ok)" }]
      [] { Subject := "hello", FullBody := "x" } (by decide)⟩

/-- **C8**: a "rating"-subject notification whose body matches no template
but contains a "ticket# digits" occurrence whose number is not yet in the
store appends that number to the unmatched diagnostic list and leaves the
record store unchanged (no output record is produced from it). -/
theorem C8_unmatched_diagnostic (st : PState) (em : Email) (ds : String) (n : Int)
    (hsub : containsCIL em.Subject.data ("rating".data) = true)
    (hm : match_rating_line em.FullBody = none)
    (ht : ticketIdSearch em.FullBody = some ds)
    (hp : pyIntOfStr ds = some n)
    (hl : storeLookup st.surveys n = none) :
    step st em = .ok { surveys := st.surveys, missed := st.missed ++ [n] } := by
  unfold step
  simp [hsub, hm, ht, hp, hl]

/-- Witness for C8: a body mentioning rating and "ticket# 99" that matches
no template places 99 in the unmatched list and produces no record. -/
theorem C8_unmatched_diagnostic_witness :
    step { surveys := [], missed := [] }
        { Subject := "A rating arrived", FullBody := "We got a rating on ticket# 99 today" } =
      .ok { surveys := [], missed := [(99 : Int)] } :=
  C8_unmatched_diagnostic { surveys := [], missed := [] }
    { Subject := "A rating arrived", FullBody := "We got a rating on ticket# 99 today" }
    "99" 99 (by decide) (by decide) (by decide) (by decide) (by decide)

/-- **C5**: for every input batch, the records the pipeline emits are
sorted in ascending order of ticket number. -/
theorem C5_output_sorted (emails : List Email) (recs : List SurveyEntry)
    (missed : List Int) (h : parse_crewhu_data emails = .ok (recs, missed)) :
    recs.Pairwise (fun a b => a.ticket_number ≤ b.ticket_number) := by
  unfold parse_crewhu_data at h
  rcases hr : runSteps { surveys := [], missed := [] } emails with _ | st
  · rw [hr] at h
    cases h
  · rw [hr] at h
    have hrecs : recs = (st.surveys.map (fun p => p.2)).mergeSort
        (fun a b => a.ticket_number ≤ b.ticket_number) := by
      cases h
      rfl
    subst hrecs
    have hsorted := @List.sorted_mergeSort SurveyEntry
      (fun a b : SurveyEntry => decide (a.ticket_number ≤ b.ticket_number))
      (by
        intro a b c hab hbc
        simp only [decide_eq_true_eq] at hab hbc ⊢
        omega)
      (by
        intro a b
        rcases Int.le_total a.ticket_number b.ticket_number with hle | hle <;>
          simp [hle])
      (st.surveys.map (fun p => p.2))
    exact hsorted.imp (fun hab => by simpa using hab)

/-- Witness for C5: a batch arriving in ticket order 7 then 3 is emitted
in ticket order 3 then 7. -/
theorem C5_output_sorted_witness :
    parse_crewhu_data
        [{ Subject := "Rating", FullBody := "Al gave a Good rating to Bo for Care on ticket# 7 (a)" },
         { Subject := "Rating", FullBody := "Cy gave a Good rating to Di for Care on ticket# 3 (b)" }] =
      .ok ([{ ticket_number := 3,
              summary := "A customer from Cy just gave a Good rating to Di for Care on ticket# 3 (b).",
              customer_feedback := "No feedback provided." },
            { ticket_number := 7,
              summary := "A customer from Al just gave a Good rating to Bo for Care on ticket# 7 (a).",
              customer_feedback := "No feedback provided." }], []) ∧
    ([{ ticket_number := (3 : Int),
        summary := "A customer from Cy just gave a Good rating to Di for Care on ticket# 3 (b).",
        customer_feedback := "No feedback provided." },
      { ticket_number := (7 : Int),
        summary := "A customer from Al just gave a Good rating to Bo for Care on ticket# 7 (a).",
        customer_feedback := "No feedback provided." }] :
      List SurveyEntry).Pairwise (fun a b => a.ticket_number ≤ b.ticket_number) := by
  have hrun : runSteps { surveys := [], missed := [] }
      [{ Subject := "Rating", FullBody := "Al gave a Good rating to Bo for Care on ticket# 7 (a)" },
       { Subject := "Rating", FullBody := "Cy gave a Good rating to Di for Care on ticket# 3 (b)" }] =
      .ok { surveys :=
              [((7 : Int),
                ({ ticket_number := 7,
                   summary := "A customer from Al just gave a Good rating to Bo for Care on ticket# 7 (a).",
                   customer_feedback := "No feedback provided." } : SurveyEntry)),
               ((3 : Int),
                ({ ticket_number := 3,
                   summary := "A customer from Cy just gave a Good rating to Di for Care on ticket# 3 (b).",
                   customer_feedback := "No feedback provided." } : SurveyEntry))],
            missed := [] } := by rfl
  have hparse : parse_crewhu_data
      [{ Subject := "Rating", FullBody := "Al gave a Good rating to Bo for Care on ticket# 7 (a)" },
       { Subject := "Rating", FullBody := "Cy gave a Good rating to Di for Care on ticket# 3 (b)" }] =
      .ok ([{ ticket_number := 3,
              summary := "A customer from Cy just gave a Good rating to Di for Care on ticket# 3 (b).",
              customer_feedback := "No feedback provided." },
            { ticket_number := 7,
              summary := "A customer from Al just gave a Good rating to Bo for Care on ticket# 7 (a).",
              customer_feedback := "No feedback provided." }], []) := by
    unfold parse_crewhu_data
    rw [hrun]
    show Except.ok ((List.mergeSort [_, _] _), ([] : List Int)) = _
    rw [mergeSort_pair]
    simp
  exact ⟨hparse, C5_output_sorted _ _ _ hparse⟩

/-! ### One record per ticket, last write wins (C4) -/

theorem storeLookup_upsert_self (st : List (Int × SurveyEntry)) (k : Int)
    (v : SurveyEntry) : storeLookup (storeUpsert st k v) k = some v := by
  unfold storeUpsert
  by_cases hany : st.any (fun p => p.1 = k) = true
  · rw [if_pos hany]
    induction st with
    | nil => cases hany
    | cons q qs ih =>
        rw [List.any_cons, Bool.or_eq_true] at hany
        by_cases hq : q.1 = k
        · unfold storeLookup
          rw [List.map_cons, if_pos hq]
          rw [List.find?_cons_of_pos _ (by simp)]
          rfl
        · unfold storeLookup
          rw [List.map_cons, if_neg hq]
          rw [List.find?_cons_of_neg _ (by simpa using hq)]
          rcases hany with h1 | h1
          · exact absurd (by simpa using h1) hq
          · exact ih h1
  · rw [if_neg hany]
    unfold storeLookup
    rw [List.find?_append]
    have hnone : st.find? (fun p => p.1 = k) = none := by
      rw [List.find?_eq_none]
      intro p hp hpk
      apply hany
      rw [List.any_eq_true]
      exact ⟨p, hp, hpk⟩
    rw [hnone, Option.none_or, List.find?_cons_of_pos _ (by simp)]
    rfl

theorem storeLookup_upsert_other (st : List (Int × SurveyEntry)) (k : Int)
    (v : SurveyEntry) (n : Int) (hn : n ≠ k) :
    storeLookup (storeUpsert st k v) n = storeLookup st n := by
  unfold storeUpsert
  by_cases hany : st.any (fun p => p.1 = k) = true
  · rw [if_pos hany]
    unfold storeLookup
    have hfun : (fun p : Int × SurveyEntry => decide (p.1 = n)) ∘
        (fun p : Int × SurveyEntry => if p.1 = k then (k, v) else p) =
        (fun p : Int × SurveyEntry => decide (p.1 = n)) := by
      funext p
      by_cases hp : p.1 = k
      · simp only [Function.comp_apply, if_pos hp]
        rw [hp]
      · simp only [Function.comp_apply, if_neg hp]
    rw [List.find?_map, hfun]
    rcases hfind : st.find? (fun p => p.1 = n) with _ | q
    · rw [hfind]
      rfl
    · rw [hfind]
      have hq : q.1 = n := by simpa using List.find?_some hfind
      have hqk : ¬(q.1 = k) := by
        rw [hq]
        exact hn
      simp only [Option.map_some']
      rw [if_neg hqk]
  · rw [if_neg hany]
    unfold storeLookup
    rw [List.find?_append,
      show List.find? (fun p => p.1 = n) [(k, v)] = none from by
        rw [List.find?_cons_of_neg _ (by simpa using fun h : k = n => hn h.symm)]
        rfl,
      Option.or_none]

theorem lastWithTicket_append_one (hist : List SurveyEntry) (e : SurveyEntry)
    (n : Int) :
    lastWithTicket (hist ++ [e]) n =
      if e.ticket_number = n then some e else lastWithTicket hist n := by
  unfold lastWithTicket
  rw [List.filter_append]
  by_cases he : e.ticket_number = n
  · rw [if_pos he, show List.filter (fun x => decide (x.ticket_number = n)) [e] = [e]
        from by simp [he]]
    rw [List.getLast?_append]
    rfl
  · rw [if_neg he, show List.filter (fun x => decide (x.ticket_number = n)) [e] = []
        from by simp [he]]
    rw [List.append_nil]

/-- What one loop iteration does to the store. -/
theorem step_surveys (st st' : PState) (em : Email) (h : step st em = .ok st') :
    (emailRecord em = none ∧ st'.surveys = st.surveys) ∨
    (∃ e, emailRecord em = some e ∧
      st'.surveys = storeUpsert st.surveys e.ticket_number e) := by
  unfold step at h
  unfold emailRecord
  split at h
  · next hc =>
      cases h
      exact Or.inl ⟨by rw [if_pos hc], rfl⟩
  · next hc =>
      rw [if_neg hc]
      split at h
      · next hm =>
          split at h
          · next hds =>
              split at h
              · cases h
              · next =>
                  split at h
                  · cases h
                    exact Or.inl ⟨rfl, rfl⟩
                  · cases h
                    exact Or.inl ⟨rfl, rfl⟩
          · next =>
              cases h
              exact Or.inl ⟨rfl, rfl⟩
      · next md hm =>
          split at h
          · cases h
          · next hsk =>
              cases h
              exact Or.inl ⟨by rw [hsk], rfl⟩
          · next e he =>
              cases h
              exact Or.inr ⟨_, by rw [he], rfl⟩

theorem step_inv (st st' : PState) (em : Email) (hist : List SurveyEntry)
    (hstep : step st em = .ok st') (hinv : StoreInv st.surveys hist) :
    StoreInv st'.surveys (hist ++ (emailRecord em).toList) := by
  rcases step_surveys st st' em hstep with ⟨hnone, hsur⟩ | ⟨e, hsome, hsur⟩
  · rw [hnone, hsur]
    simpa using hinv
  · rw [hsome, hsur, show (some e).toList = [e] from rfl]
    obtain ⟨hnd, hkv, hlk⟩ := hinv
    refine ⟨?_, ?_, ?_⟩
    · unfold storeUpsert
      by_cases hany : st.surveys.any (fun p => p.1 = e.ticket_number) = true
      · rw [if_pos hany, List.map_map]
        have hfun : (Prod.fst ∘ fun p : Int × SurveyEntry =>
            if p.1 = e.ticket_number then (e.ticket_number, e) else p) = Prod.fst := by
          funext p
          by_cases hp : p.1 = e.ticket_number
          · simp [hp]
          · simp [hp]
        rw [hfun]
        exact hnd
      · rw [if_neg hany, List.map_append]
        rw [List.nodup_append]
        refine ⟨hnd, List.nodup_singleton _, ?_⟩
        intro a ha hb
        simp only [List.map_cons, List.map_nil, List.mem_singleton] at hb
        subst hb
        obtain ⟨p, hp, hpk⟩ := List.mem_map.mp ha
        apply hany
        rw [List.any_eq_true]
        exact ⟨p, hp, by simpa using hpk⟩
    · intro p hp
      unfold storeUpsert at hp
      by_cases hany : st.surveys.any (fun q => q.1 = e.ticket_number) = true
      · rw [if_pos hany] at hp
        obtain ⟨q, hq, hfq⟩ := List.mem_map.mp hp
        by_cases hqe : q.1 = e.ticket_number
        · rw [if_pos hqe] at hfq
          rw [← hfq]
        · rw [if_neg hqe] at hfq
          rw [← hfq]
          exact hkv q hq
      · rw [if_neg hany] at hp
        rcases List.mem_append.mp hp with h1 | h1
        · exact hkv p h1
        · simp only [List.mem_singleton] at h1
          rw [h1]
    · intro n
      by_cases hn : n = e.ticket_number
      · subst hn
        rw [storeLookup_upsert_self, lastWithTicket_append_one, if_pos rfl]
      · rw [storeLookup_upsert_other _ _ _ _ hn, lastWithTicket_append_one,
          if_neg (fun h => hn h.symm)]
        exact hlk n

theorem runSteps_inv :
    ∀ (emails : List Email) (st st' : PState) (hist : List SurveyEntry),
      StoreInv st.surveys hist → runSteps st emails = .ok st' →
      StoreInv st'.surveys (hist ++ successRecords emails) := by
  intro emails
  induction emails with
  | nil =>
      intro st st' hist hinv h
      cases h
      rw [show successRecords [] = [] from rfl, List.append_nil]
      exact hinv
  | cons em ems ih =>
      intro st st' hist hinv h
      unfold runSteps at h
      split at h
      · cases h
      · next st1 hstep =>
          have h1 := step_inv st st1 em hist hstep hinv
          have h2 := ih st1 st' (hist ++ (emailRecord em).toList) h1 h
          rw [List.append_assoc] at h2
          have hsucc : successRecords (em :: ems) =
              (emailRecord em).toList ++ successRecords ems := by
            unfold successRecords
            rw [List.filterMap_cons]
            rcases emailRecord em with _ | e
            · rfl
            · rfl
          rw [hsucc]
          exact h2

theorem storeLookup_of_mem (st : List (Int × SurveyEntry))
    (hnd : (st.map Prod.fst).Nodup) (p : Int × SurveyEntry) (hp : p ∈ st) :
    storeLookup st p.1 = some p.2 := by
  induction st with
  | nil => cases hp
  | cons q qs ih =>
      rw [List.map_cons, List.nodup_cons] at hnd
      by_cases hq : q.1 = p.1
      · unfold storeLookup
        rw [List.find?_cons_of_pos _ (by simpa using hq)]
        rcases List.mem_cons.mp hp with h1 | h1
        · rw [h1]
          rfl
        · exact absurd (hq ▸ List.mem_map_of_mem Prod.fst h1) hnd.1
      · unfold storeLookup
        rw [List.find?_cons_of_neg _ (by simpa using hq)]
        rcases List.mem_cons.mp hp with h1 | h1
        · exact absurd (congrArg Prod.fst h1).symm hq
        · exact ih hnd.2 h1

theorem lastWithTicket_of_mem (l : List SurveyEntry) (e' : SurveyEntry)
    (he : e' ∈ l) :
    ∃ e'', lastWithTicket l e'.ticket_number = some e'' ∧
      e''.ticket_number = e'.ticket_number := by
  have hmem : e' ∈ l.filter (fun e => e.ticket_number = e'.ticket_number) := by
    rw [List.mem_filter]
    exact ⟨he, by simp⟩
  have hne : l.filter (fun e => e.ticket_number = e'.ticket_number) ≠ [] :=
    List.ne_nil_of_mem hmem
  obtain ⟨e'', he''⟩ :=
    Option.isSome_iff_exists.mp (List.getLast?_isSome.mpr hne)
  refine ⟨e'', he'', ?_⟩
  have hmem'' : e'' ∈ l.filter (fun e => e.ticket_number = e'.ticket_number) := by
    rcases List.mem_getLast?_eq_getLast (by rw [he'']; exact rfl) with ⟨h1, h2⟩
    rw [h2]
    exact List.getLast_mem h1
  rw [List.mem_filter] at hmem''
  simpa using hmem''.2

/-- **C4**: the final output has exactly one record per distinct ticket
number, and the surviving record for each ticket is the one contributed
by the last-processed notification for that ticket (last write wins, no
merging); conversely every successfully processed notification is
represented by the record carrying its ticket number. -/
theorem C4_dedup_last_write_wins (emails : List Email) (recs : List SurveyEntry)
    (missed : List Int) (h : parse_crewhu_data emails = .ok (recs, missed)) :
    (recs.map (fun e => e.ticket_number)).Nodup ∧
    (∀ e ∈ recs, lastWithTicket (successRecords emails) e.ticket_number = some e) ∧
    (∀ e' ∈ successRecords emails,
      ∃ e ∈ recs, e.ticket_number = e'.ticket_number) := by
  unfold parse_crewhu_data at h
  rcases hr : runSteps { surveys := [], missed := [] } emails with _ | st
  · rw [hr] at h
    cases h
  · rw [hr] at h
    have hinv0 : StoreInv ([] : List (Int × SurveyEntry)) [] := by
      refine ⟨List.nodup_nil, ?_, ?_⟩
      · intro p hp
        cases hp
      · intro n
        rfl
    have hinv := runSteps_inv emails { surveys := [], missed := [] } st [] hinv0 hr
    rw [List.nil_append] at hinv
    obtain ⟨hnd, hkv, hlk⟩ := hinv
    have hrecs : recs = (st.surveys.map (fun p => p.2)).mergeSort
        (fun a b => a.ticket_number ≤ b.ticket_number) := by
      cases h
      rfl
    have hperm : List.Perm recs (st.surveys.map (fun p => p.2)) := by
      rw [hrecs]
      exact List.mergeSort_perm _ _
    refine ⟨?_, ?_, ?_⟩
    · have hmap : List.Perm (recs.map (fun e => e.ticket_number))
          ((st.surveys.map (fun p => p.2)).map (fun e => e.ticket_number)) :=
        hperm.map _
      rw [hmap.nodup_iff, List.map_map]
      have hfun : ∀ p ∈ st.surveys,
          ((fun e : SurveyEntry => e.ticket_number) ∘ (fun p : Int × SurveyEntry => p.2)) p =
            p.1 := by
        intro p hp
        exact (hkv p hp).symm
      rw [List.map_congr_left hfun]
      exact hnd
    · intro e he
      have hmem : e ∈ st.surveys.map (fun p => p.2) := hperm.mem_iff.mp he
      obtain ⟨p, hp, hpe⟩ := List.mem_map.mp hmem
      have hlook : storeLookup st.surveys p.1 = some p.2 :=
        storeLookup_of_mem st.surveys hnd p hp
      rw [hlk p.1] at hlook
      rw [show e.ticket_number = p.1 from by rw [← hpe]; exact (hkv p hp).symm, hlook,
        hpe]
    · intro e' he'
      obtain ⟨e'', he''look, he''tk⟩ :=
        lastWithTicket_of_mem (successRecords emails) e' he'
      have hlook : storeLookup st.surveys e'.ticket_number = some e'' := by
        rw [hlk]
        exact he''look
      unfold storeLookup at hlook
      obtain ⟨q, hq, hqe⟩ := Option.map_eq_some'.mp hlook
      refine ⟨e'', ?_, he''tk⟩
      rw [hperm.mem_iff]
      rw [← hqe]
      exact List.mem_map_of_mem _ (List.mem_of_find?_eq_some hq)

/-- Witness for C4: two notifications for ticket 42; the output has one
record for 42 and it is the one from the second (later) notification. -/
theorem C4_dedup_last_write_wins_witness :
    (([{ ticket_number := (42 : Int),
         summary := "A customer from Cy just gave a Bad rating to Di for Care on ticket# 42 (second).",
         customer_feedback := "No feedback provided." }] :
        List SurveyEntry).map (fun e => e.ticket_number)).Nodup ∧
    (∀ e ∈ ([{ ticket_number := (42 : Int),
               summary := "A customer from Cy just gave a Bad rating to Di for Care on ticket# 42 (second).",
               customer_feedback := "No feedback provided." }] : List SurveyEntry),
      lastWithTicket
        (successRecords
          [{ Subject := "Rating", FullBody := "Al gave a Good rating to Bo for Care on ticket# 42 (first)" },
           { Subject := "Rating", FullBody := "Cy gave a Bad rating to Di for Care on ticket# 42 (second)" }])
        e.ticket_number = some e) ∧
    (∀ e' ∈ successRecords
        [{ Subject := "Rating", FullBody := "Al gave a Good rating to Bo for Care on ticket# 42 (first)" },
         { Subject := "Rating", FullBody := "Cy gave a Bad rating to Di for Care on ticket# 42 (second)" }],
      ∃ e ∈ ([{ ticket_number := (42 : Int),
                summary := "A customer from Cy just gave a Bad rating to Di for Care on ticket# 42 (second).",
                customer_feedback := "No feedback provided." }] : List SurveyEntry),
        e.ticket_number = e'.ticket_number) := by
  apply C4_dedup_last_write_wins
    [{ Subject := "Rating", FullBody := "Al gave a Good rating to Bo for Care on ticket# 42 (first)" },
     { Subject := "Rating", FullBody := "Cy gave a Bad rating to Di for Care on ticket# 42 (second)" }]
    _ []
  have hrun : runSteps { surveys := [], missed := [] }
      [{ Subject := "Rating", FullBody := "Al gave a Good rating to Bo for Care on ticket# 42 (first)" },
       { Subject := "Rating", FullBody := "Cy gave a Bad rating to Di for Care on ticket# 42 (second)" }] =
      .ok { surveys :=
              [((42 : Int),
                ({ ticket_number := 42,
                   summary := "A customer from Cy just gave a Bad rating to Di for Care on ticket# 42 (second).",
                   customer_feedback := "No feedback provided." } : SurveyEntry))],
            missed := [] } := by rfl
  unfold parse_crewhu_data
  rw [hrun]
  show Except.ok ((List.mergeSort [_] _), ([] : List Int)) = _
  rw [List.mergeSort_singleton]

end Crewhu
